import Mathlib

/-!
Verification development for the filesystem utility module
(mapproxy/util/__init__.py): atomic directory swapping (swap_dir and
_force_rename_dir), timestamp-based cache cleanup (cleanup_directory),
atomic single-file writes (write_atomic) and ISO-date timestamp parsing
(timestamp_from_isodate).

The Python code performs OS calls whose outcomes depend on the surrounding
filesystem; the embedding makes those outcomes explicit oracles (one entry
per call site, `none` = success, `some e` = the call raised OSError with
errno `e`) and models the directory tree that cleanup_directory walks as an
inductive tree.  Control flow, retry counting, sleeping, error swallowing
and re-raising are translated statement by statement from the source.
-/

set_option linter.unusedVariables false

/-- errno.ENOENT on Linux. -/
def ENOENT : Nat := 2
/-- errno.EEXIST on Linux. -/
def EEXIST : Nat := 17
/-- errno.ENOTDIR on Linux. -/
def ENOTDIR : Nat := 20
/-- errno.ENOTEMPTY on Linux. -/
def ENOTEMPTY : Nat := 39

/-! ## _force_rename_dir

Python source:

    rename_tries = 0
    while rename_tries < 10:
        try:
            os.rename(src_dir, dst_dir)
        except OSError, ex:
            if ex.errno == errno.ENOTEMPTY or ex.errno == errno.EEXIST:
                if rename_tries > 0:
                    time.sleep(2**rename_tries / 100.0) # from 10ms to 5s
                rename_tries += 1
                shutil.rmtree(dst_dir)
            else:
                raise
        else:
            break # on success

The outcome of the k-th `os.rename` call (0-indexed; the index always
equals the current value of rename_tries) is `renames k`; the outcome of
the `shutil.rmtree(dst_dir)` call made after the k-th failed rename is
`rmtrees k`.  Sleep durations are recorded exactly, as rationals, in the
order they are performed.
-/

/-- How the `while rename_tries < 10` loop of _force_rename_dir ends:
the rename succeeded (`break`), an exception escaped (`raised`), or the
loop condition became false after ten occupancy failures (`exhausted`),
which in the Python code falls through and returns normally. -/
inductive FRResult : Type
  | success : FRResult
  | raised : Nat → FRResult
  | exhausted : FRResult
  deriving DecidableEq, Repr

/-- Observable record of one run of _force_rename_dir: how it ended, the
time.sleep durations performed (in seconds, in order), and how many
shutil.rmtree and os.rename calls were made. -/
structure FRRun : Type where
  result : FRResult
  sleeps : List ℚ
  rmtreeCalls : Nat
  renameCalls : Nat
  deriving DecidableEq, Repr

/-- Loop body of _force_rename_dir.  `fuel` is the number of loop
iterations still allowed (10 - rename_tries) and `t` the current value of
rename_tries; the top-level entry point calls it with fuel = 10, t = 0,
so fuel = 0 is exactly the exit of `while rename_tries < 10`. -/
def forceRenameGo (renames rmtrees : Nat → Option Nat) : Nat → Nat → FRRun
  | 0, _ => ⟨FRResult.exhausted, [], 0, 0⟩
  | fuel + 1, t =>
    match renames t with
    | none => ⟨FRResult.success, [], 0, 1⟩
    | some e =>
      if e = ENOTEMPTY ∨ e = EEXIST then
        -- sleep only when rename_tries > 0, then rename_tries += 1, then rmtree
        let sl : List ℚ := if 0 < t then [(2 ^ t : ℚ) / 100] else []
        match rmtrees t with
        | some e2 => ⟨FRResult.raised e2, sl, 1, 1⟩
        | none =>
          let r := forceRenameGo renames rmtrees fuel (t + 1)
          ⟨r.result, sl ++ r.sleeps, r.rmtreeCalls + 1, r.renameCalls + 1⟩
      else
        ⟨FRResult.raised e, [], 0, 1⟩

/-- _force_rename_dir(src_dir, dst_dir), given the outcome oracles for its
rename and rmtree calls. -/
def forceRenameDir (renames rmtrees : Nat → Option Nat) : FRRun :=
  forceRenameGo renames rmtrees 10 0

/-- Sleep durations performed by `k` consecutive occupancy failures
starting at rename_tries = t: nothing for a failure at t = 0, and
2^t / 100 seconds otherwise. -/
def sleepList (t : Nat) : Nat → List ℚ
  | 0 => []
  | k + 1 => (if 0 < t then [(2 ^ t : ℚ) / 100] else []) ++ sleepList (t + 1) k

/-! ## swap_dir

Python source:

    tmp_dir = dst_dir + backup_ext
    if os.path.exists(dst_dir):
        os.rename(dst_dir, tmp_dir)
    _force_rename_dir(src_dir, dst_dir)
    if os.path.exists(tmp_dir) and not keep_old:
        shutil.rmtree(tmp_dir)

The model tracks whether dst_dir and tmp_dir exist; outcomes of the
initial rename and of the final rmtree come from the environment.
-/

/-- Outcome oracles for one swap_dir call: the initial
os.rename(dst_dir, tmp_dir), the rename/rmtree calls inside
_force_rename_dir, and the final shutil.rmtree(tmp_dir). -/
structure SwapEnv : Type where
  rename0 : Option Nat
  renames : Nat → Option Nat
  rmtrees : Nat → Option Nat
  rmtreeTmp : Option Nat

/-- Whether swap_dir returned normally or propagated an OSError. -/
inductive SwapOutcome : Type
  | ok : SwapOutcome
  | raised : Nat → SwapOutcome
  deriving DecidableEq, Repr

/-- Observable record of one swap_dir call. -/
structure SwapRun : Type where
  outcome : SwapOutcome
  forceResult : Option FRResult
  rmtreeTmpCalled : Bool
  tmpExistsAfter : Bool
  deriving DecidableEq, Repr

/-- swap_dir(src_dir, dst_dir, keep_old), given the initial existence of
dst_dir and of the backup path dst_dir + backup_ext. -/
def swap_dir (env : SwapEnv) (dstExists0 tmpExists0 keep_old : Bool) : SwapRun :=
  match (if dstExists0 then env.rename0 else none) with
  | some e => ⟨SwapOutcome.raised e, none, false, tmpExists0⟩
  | none =>
    -- after the initial rename the backup path exists if dst_dir existed
    let tmpE := tmpExists0 || dstExists0
    let fr := forceRenameDir env.renames env.rmtrees
    match fr.result with
    | FRResult.raised e => ⟨SwapOutcome.raised e, some (FRResult.raised e), false, tmpE⟩
    | r =>
      if tmpE && !keep_old then
        match env.rmtreeTmp with
        | some e => ⟨SwapOutcome.raised e, some r, true, true⟩
        | none => ⟨SwapOutcome.ok, some r, true, false⟩
      else
        ⟨SwapOutcome.ok, some r, false, tmpE⟩

/-! ## cleanup_directory

Python source:

    if file_handler is None:
        if before_timestamp == 0 and remove_empty_dirs == True and os.path.exists(directory):
            shutil.rmtree(directory, ignore_errors=True)
            return
        file_handler = os.remove
    if os.path.exists(directory):
        for dirpath, dirnames, filenames in os.walk(directory, topdown=False):
            if not filenames:
                if (remove_empty_dirs and not os.listdir(dirpath)
                    and dirpath != directory):
                    os.rmdir(dirpath)
                continue
            for filename in filenames:
                filename = os.path.join(dirpath, filename)
                try:
                    if before_timestamp == 0:
                        file_handler(filename)
                    if os.lstat(filename).st_mtime < before_timestamp:
                        file_handler(filename)
                except OSError, ex:
                    if ex.errno != errno.ENOENT: raise
            if remove_empty_dirs:
                remove_dir_if_emtpy(dirpath)
        if remove_empty_dirs:
            remove_dir_if_emtpy(directory)

The directory tree is modelled as a mutual inductive (a tree node is a
file with an mtime, or a directory with a list of named entries).
os.walk(directory, topdown=False) lists each directory before descending
and yields it after all its subdirectories; since the loop body only
deletes entries, the filenames of a yielded directory as listed equal its
files at yield time, while the fresh os.listdir in the empty-filenames
branch sees the tree as already mutated by the walk below.  The walk is
therefore embedded as: process all child entries in listing order
(subdirectories recursively; the yield of each subdirectory follows its
own children), then perform this directory's own yield.
-/

mutual
/-- A node of the directory tree: a file carrying its st_mtime, or a
directory with its entries. -/
inductive FSTree : Type
  | file : Nat → FSTree
  | dir : EntryList → FSTree
  deriving DecidableEq, Repr

/-- Named entries of a directory, in listing order. -/
inductive EntryList : Type
  | nil : EntryList
  | cons : String → FSTree → EntryList → EntryList
  deriving DecidableEq, Repr
end

/-- Result of one os.listdir emptiness test on the modelled tree. -/
def EntryList.isEmpty : EntryList → Bool
  | EntryList.nil => true
  | EntryList.cons _ _ _ => false

/-- Names of the entries of a directory. -/
def EntryList.names : EntryList → List String
  | EntryList.nil => []
  | EntryList.cons n _ rest => n :: rest.names

/-- The file entries of a directory (subdirectories dropped), in order. -/
def filesOnly : EntryList → EntryList
  | EntryList.nil => EntryList.nil
  | EntryList.cons n (FSTree.file m) rest => EntryList.cons n (FSTree.file m) (filesOnly rest)
  | EntryList.cons _ (FSTree.dir _) rest => filesOnly rest

/-- True when every entry is a file. -/
def allFiles : EntryList → Bool
  | EntryList.nil => true
  | EntryList.cons _ (FSTree.file _) rest => allFiles rest
  | EntryList.cons _ (FSTree.dir _) _ => false

/-- The `filenames` component of an os.walk yield: name and mtime of each
file of the directory, in listing order. -/
def filenamesOf : EntryList → List (String × Nat)
  | EntryList.nil => []
  | EntryList.cons n (FSTree.file m) rest => (n, m) :: filenamesOf rest
  | EntryList.cons _ (FSTree.dir _) rest => filenamesOf rest

/-- What one file_handler call does to the file it is applied to: either
return normally leaving the file removed (`ok none`, the behaviour of the
default handler os.remove) or present with a possibly changed mtime
(`ok (some m)`), or raise OSError with the given errno, leaving the file
unchanged. -/
inductive HandlerResult : Type
  | ok : Option Nat → HandlerResult
  | err : Nat → HandlerResult
  deriving DecidableEq, Repr

/-- A file_handler: receives the path and current mtime of an existing
file. -/
def Handler : Type := List String → Nat → HandlerResult

/-- The default file_handler, os.remove: deletes the file. -/
def defaultHandler : Handler := fun _ _ => HandlerResult.ok none

/-- The try-block of the per-file loop, for one file that exists with
mtime `m` when the loop reaches it.  Returns the resulting state of the
file (`none` = removed), the number of file_handler calls made, and the
errno of an OSError escaping the try-block, if any.  When
before_timestamp = 0 the handler runs first, so the subsequent os.lstat
raises ENOENT if the handler removed the file. -/
def fileTryBody (bt : Nat) (h : Handler) (p : List String) (m : Nat) :
    Option Nat × Nat × Option Nat :=
  if bt = 0 then
    match h p m with
    | HandlerResult.err e => (some m, 1, some e)
    | HandlerResult.ok nf =>
      match nf with
      | none => (none, 1, some ENOENT)      -- os.lstat on the removed file
      | some m2 =>
        if m2 < bt then
          match h p m2 with
          | HandlerResult.err e => (some m2, 2, some e)
          | HandlerResult.ok nf2 => (nf2, 2, none)
        else (some m2, 1, none)
  else
    -- os.lstat succeeds: the file exists with mtime m
    if m < bt then
      match h p m with
      | HandlerResult.err e => (some m, 1, some e)
      | HandlerResult.ok nf => (nf, 1, none)
    else (some m, 0, none)

/-- One iteration of `for filename in filenames`: the try-block followed
by the except clause that swallows ENOENT and re-raises everything else. -/
def processFile (bt : Nat) (h : Handler) (p : List String) (m : Nat) :
    Option Nat × Nat × Option Nat :=
  match fileTryBody bt h p m with
  | (nf, c, none) => (nf, c, none)
  | (nf, c, some e) => if e = ENOENT then (nf, c, none) else (nf, c, some e)

/-- Replace (or, for `none`, delete) the file entry named `n0` after a
file_handler call; directory entries are untouched. -/
def updateFileEntry : EntryList → String → Option Nat → EntryList
  | EntryList.nil, _, _ => EntryList.nil
  | EntryList.cons n (FSTree.file m) rest, n0, nf =>
    if n = n0 then
      match nf with
      | none => updateFileEntry rest n0 nf
      | some m2 => EntryList.cons n (FSTree.file m2) (updateFileEntry rest n0 nf)
    else EntryList.cons n (FSTree.file m) (updateFileEntry rest n0 nf)
  | EntryList.cons n (FSTree.dir d) rest, n0, nf =>
    EntryList.cons n (FSTree.dir d) (updateFileEntry rest n0 nf)

/-- The `for filename in filenames` loop over one yielded directory whose
current entries are `es`: each listed file is handled in order; an errno
escaping the per-file try/except aborts the loop (and the whole walk). -/
def processFiles (bt : Nat) (h : Handler) (p : List String) :
    EntryList → List (String × Nat) → EntryList × Option Nat
  | es, [] => (es, none)
  | es, (n, m) :: rest =>
    let r := processFile bt h (p ++ [n]) m
    let es1 := updateFileEntry es n r.1
    match r.2.2 with
    | some e => (es1, some e)
    | none => processFiles bt h p es1 rest

/-- Mutating filesystem operations performed by cleanup_directory, in
order, other than file_handler calls: the os.rmdir of the
empty-filenames branch, the remove_dir_if_emtpy after a directory's file
processing, the remove_dir_if_emtpy on the root after the walk, and the
shutil.rmtree of the fast path.  For the two best-effort removals the
flag records whether the directory was actually removed (false = the
swallowed ENOENT/ENOTEMPTY outcome). -/
inductive CleanEvent : Type
  | rmdirEmpty : List String → CleanEvent
  | removeIfEmpty : List String → Bool → CleanEvent
  | finalRemove : Bool → CleanEvent
  | rmtreeRoot : CleanEvent
  deriving DecidableEq, Repr

/-- The body of the walk loop for one yielded directory: `orig` is the
directory's entry list as it was when os.walk listed it (which determines
`filenames`), `cur` its entries after the walk processed everything below
it.  Returns the directory's entries afterwards (`none` = the directory
itself was removed), the events performed, and a propagating errno. -/
def dirYield (bt : Nat) (red : Bool) (h : Handler) (root : Bool) (p : List String)
    (orig cur : EntryList) : Option EntryList × List CleanEvent × Option Nat :=
  let fns := filenamesOf orig
  if fns.isEmpty then
    -- `if not filenames: ... continue`
    if red && cur.isEmpty && !root then (none, [CleanEvent.rmdirEmpty p], none)
    else (some cur, [], none)
  else
    match processFiles bt h p cur fns with
    | (cur2, some e) => (some cur2, [], some e)
    | (cur2, none) =>
      if red then
        if cur2.isEmpty then (none, [CleanEvent.removeIfEmpty p true], none)
        else (some cur2, [CleanEvent.removeIfEmpty p false], none)
      else (some cur2, [], none)

/-- The bottom-up walk over the children of a directory at path `p`: each
subdirectory entry is fully walked (its own children, then its yield) in
listing order; file entries are left for the parent's own yield.  An
escaping errno aborts the walk, leaving later entries unprocessed. -/
def walkChildren (bt : Nat) (red : Bool) (h : Handler) (p : List String) :
    EntryList → EntryList × List CleanEvent × Option Nat
  | EntryList.nil => (EntryList.nil, [], none)
  | EntryList.cons n (FSTree.file m) rest =>
    let r := walkChildren bt red h p rest
    (EntryList.cons n (FSTree.file m) r.1, r.2.1, r.2.2)
  | EntryList.cons n (FSTree.dir sub) rest =>
    let rsub := walkChildren bt red h (p ++ [n]) sub
    match rsub.2.2 with
    | some e => (EntryList.cons n (FSTree.dir rsub.1) rest, rsub.2.1, some e)
    | none =>
      match dirYield bt red h false (p ++ [n]) sub rsub.1 with
      | (none, tr2, none) =>
        let r := walkChildren bt red h p rest
        (r.1, rsub.2.1 ++ tr2 ++ r.2.1, r.2.2)
      | (some sub2, tr2, none) =>
        let r := walkChildren bt red h p rest
        (EntryList.cons n (FSTree.dir sub2) r.1, rsub.2.1 ++ tr2 ++ r.2.1, r.2.2)
      | (none, tr2, some e) => (rest, rsub.2.1 ++ tr2, some e)
      | (some sub2, tr2, some e) =>
        (EntryList.cons n (FSTree.dir sub2) rest, rsub.2.1 ++ tr2, some e)

/-- The full os.walk loop on the root directory: all children, then the
root's own yield (for which dirpath == directory). -/
def walkRoot (bt : Nat) (red : Bool) (h : Handler) (es : EntryList) :
    Option EntryList × List CleanEvent × Option Nat :=
  let r := walkChildren bt red h [] es
  match r.2.2 with
  | some e => (some r.1, r.2.1, some e)
  | none =>
    match dirYield bt red h true [] es r.1 with
    | (st, tr2, ab) => (st, r.2.1 ++ tr2, ab)

/-- The `if os.path.exists(directory)` part of cleanup_directory: the walk
followed by the final remove_dir_if_emtpy on the root.  A root that is a
plain file is walked as nothing (os.walk swallows the listdir error) and
the final os.rmdir on it raises ENOTDIR, which remove_dir_if_emtpy
re-raises. -/
def cleanupWalk (bt : Nat) (red : Bool) (h : Handler) (fs : Option FSTree) :
    Option FSTree × List CleanEvent × Option Nat :=
  match fs with
  | none => (none, [], none)
  | some (FSTree.file m) =>
    if red then (some (FSTree.file m), [], some ENOTDIR)
    else (some (FSTree.file m), [], none)
  | some (FSTree.dir es) =>
    match walkRoot bt red h es with
    | (st, tr, some e) => ((st.map FSTree.dir), tr, some e)
    | (st, tr, none) =>
      if red then
        match st with
        | none => (none, tr ++ [CleanEvent.finalRemove false], none)
        | some es2 =>
          if es2.isEmpty then (none, tr ++ [CleanEvent.finalRemove true], none)
          else (some (FSTree.dir es2), tr ++ [CleanEvent.finalRemove false], none)
      else (st.map FSTree.dir, tr, none)

/-- cleanup_directory(directory, before_timestamp, remove_empty_dirs,
file_handler).  `fh = none` is Python's file_handler=None (which enables
the fast path and otherwise defaults the handler to os.remove);
`fs = none` means the directory path does not exist.  Returns the
resulting tree at the path, the events performed, and a propagating
errno. -/
def cleanup_directory (bt : Nat) (red : Bool) (fh : Option Handler) (fs : Option FSTree) :
    Option FSTree × List CleanEvent × Option Nat :=
  match fh with
  | none =>
    if bt = 0 ∧ red = true ∧ fs.isSome then
      -- shutil.rmtree(directory, ignore_errors=True); return
      (none, [CleanEvent.rmtreeRoot], none)
    else cleanupWalk bt red defaultHandler fs
  | some h => cleanupWalk bt red h fs

/-! ## write_atomic

Python source (POSIX branch):

    path_tmp = filename + '.tmp-' + str(random.randint(0, 999999))
    try:
        fd = os.open(path_tmp, os.O_EXCL | os.O_CREAT | os.O_WRONLY)
        with os.fdopen(fd, 'wb') as f:
            f.write(data)
        os.rename(path_tmp, filename)
    except OSError:
        try:
            os.unlink(path_tmp)
        except OSError:
            pass
        raise

This is Python 2 (`except OSError, ex` syntax elsewhere in the module), in
which IOError is not a subclass of OSError: os.open and os.rename raise
OSError, but a failure while writing the bytes (f.write / the close
performed by the with-block) raises IOError, which `except OSError` does
not catch.  The model distinguishes the two exception classes and tracks
the target's content and whether the temporary file is left behind.
-/

/-- A Python 2 exception escaping write_atomic, with its errno. -/
inductive PyErr : Type
  | osError : Nat → PyErr
  | ioError : Nat → PyErr
  deriving DecidableEq, Repr

/-- Outcome oracles for one write_atomic call. -/
structure WriteEnv : Type where
  openR : Option Nat     -- os.open(path_tmp, O_EXCL | O_CREAT | O_WRONLY)
  writeR : Option Nat    -- f.write(data) together with the with-block close
  renameR : Option Nat   -- os.rename(path_tmp, filename)
  unlinkR : Option Nat   -- os.unlink(path_tmp) in the except handler

/-- Observable result of one write_atomic call: the escaping exception if
any, the content at the target path afterwards, and whether the temporary
file is left behind. -/
structure WriteResult : Type where
  raised : Option PyErr
  target : Option (List Nat)
  tmpExists : Bool
  deriving DecidableEq, Repr

/-- write_atomic(filename, data) on POSIX, with `target0` the content at
the target path before the call (`none` = absent). -/
def write_atomic (env : WriteEnv) (data : List Nat) (target0 : Option (List Nat)) :
    WriteResult :=
  match env.openR with
  | some e =>
    -- OSError from os.open is caught; os.unlink of the never-created temp
    -- file raises ENOENT, swallowed by the inner except; the original
    -- error is re-raised
    ⟨some (PyErr.osError e), target0, false⟩
  | none =>
    match env.writeR with
    | some e =>
      -- IOError from writing the bytes is not an OSError in Python 2:
      -- the except clause does not run and the temp file stays behind
      ⟨some (PyErr.ioError e), target0, true⟩
    | none =>
      match env.renameR with
      | some e =>
        -- OSError from os.rename: best-effort unlink (errors swallowed),
        -- then the original error is re-raised
        ⟨some (PyErr.osError e), target0, env.unlinkR.isSome⟩
      | none => ⟨none, some data, false⟩

/-! ## timestamp_from_isodate

Python source:

    if isinstance(isodate, datetime.datetime):
        date = isodate
    else:
        date = datetime.datetime.strptime(isodate, "%Y-%m-%dT%H:%M:%S")
    return time.mktime(date.timetuple())

datetime.strptime with this fixed format is embedded after CPython 2.7's
_strptime regexes for the directives involved:

    %Y  \d\d\d\d                 (exactly four digits)
    %m  1[0-2]|0[1-9]|[1-9]      (one or two digits, value 1..12)
    %d  3[01]|[12]\d|0[1-9]|[1-9]  (one or two digits, value 1..31)
    %H  2[0-3]|[0-1]\d|\d        (one or two digits, value 0..23)
    %M  [0-5]\d|\d               (one or two digits, value 0..59)
    %S  6[0-1]|[0-5]\d|\d        (one or two digits, value 0..61)

with literal separators, a full match required ("unconverted data
remains" otherwise), followed by the datetime() constructor's range
validation (MINYEAR 1, day valid for the month, second 0..59).  In this
format every field is followed by a non-digit separator or the end of the
string, so the regex's two-digit alternatives never need backtracking to
one digit: whenever two digits are present and form an allowed two-digit
value, the regex commits to them, which is what parseField implements.
time.mktime is modelled with the local timezone offset fixed at zero; the
claims settled here do not depend on the offset.
-/

/-- Numeric value of an ASCII digit. -/
def digitVal (c : Char) : Option Nat :=
  if '0' ≤ c ∧ c ≤ '9' then some (c.toNat - 48) else none

/-- The %Y directive: exactly four digits. -/
def parseYear : List Char → Option (Nat × List Char)
  | c1 :: c2 :: c3 :: c4 :: rest =>
    match digitVal c1, digitVal c2, digitVal c3, digitVal c4 with
    | some a, some b, some c, some d => some (1000 * a + 100 * b + 10 * c + d, rest)
    | _, _, _, _ => none
  | _ => none

/-- A one-or-two-digit directive: two digits are consumed when their
combined value satisfies `okTwo`, else one digit when it satisfies
`okOne`. -/
def parseField (okTwo okOne : Nat → Bool) : List Char → Option (Nat × List Char)
  | [] => none
  | [c1] =>
    match digitVal c1 with
    | some d => if okOne d then some (d, []) else none
    | none => none
  | c1 :: c2 :: rest =>
    match digitVal c1, digitVal c2 with
    | some d1, some d2 =>
      if okTwo (10 * d1 + d2) then some (10 * d1 + d2, rest)
      else if okOne d1 then some (d1, c2 :: rest) else none
    | some d1, none => if okOne d1 then some (d1, c2 :: rest) else none
    | none, _ => none

/-- A literal character of the format string. -/
def parseLit (ch : Char) : List Char → Option (List Char)
  | c :: rest => if c = ch then some rest else none
  | [] => none

/-- A parsed (or already-structured) datetime value: year, month, day,
hour, minute, second. -/
structure DateTimeM : Type where
  year : Nat
  month : Nat
  day : Nat
  hour : Nat
  minute : Nat
  second : Nat
  deriving DecidableEq, Repr

/-- The Gregorian leap-year rule used by the datetime module. -/
def isLeap (y : Nat) : Bool := y % 4 = 0 && (y % 100 ≠ 0 || y % 400 = 0)

/-- Days in a month, as validated by the datetime() constructor. -/
def daysInMonth (y m : Nat) : Nat :=
  if m = 2 then (if isLeap y then 29 else 28)
  else if m = 4 ∨ m = 6 ∨ m = 9 ∨ m = 11 then 30
  else 31

/-- The datetime() constructor's range validation (MINYEAR = 1,
MAXYEAR = 9999, month 1..12, day valid for month, hour 0..23,
minute 0..59, second 0..59). -/
def mkDatetime (y m d h mi s : Nat) : Option DateTimeM :=
  if 1 ≤ y ∧ y ≤ 9999 ∧ 1 ≤ m ∧ m ≤ 12 ∧ 1 ≤ d ∧ d ≤ daysInMonth y m
      ∧ h ≤ 23 ∧ mi ≤ 59 ∧ s ≤ 59
  then some ⟨y, m, d, h, mi, s⟩ else none

/-- datetime.datetime.strptime(s, "%Y-%m-%dT%H:%M:%S") on the characters
of `s`: `none` is the ValueError path. -/
def strptimeIsoChars (cs : List Char) : Option DateTimeM :=
  match parseYear cs with
  | none => none
  | some (y, r1) =>
    match parseLit '-' r1 with
    | none => none
    | some r2 =>
      match parseField (fun v => decide (1 ≤ v ∧ v ≤ 12)) (fun d => decide (1 ≤ d)) r2 with
      | none => none
      | some (mo, r3) =>
        match parseLit '-' r3 with
        | none => none
        | some r4 =>
          match parseField (fun v => decide (1 ≤ v ∧ v ≤ 31)) (fun d => decide (1 ≤ d)) r4 with
          | none => none
          | some (dy, r5) =>
            match parseLit 'T' r5 with
            | none => none
            | some r6 =>
              match parseField (fun v => decide (v ≤ 23)) (fun _ => true) r6 with
              | none => none
              | some (hr, r7) =>
                match parseLit ':' r7 with
                | none => none
                | some r8 =>
                  match parseField (fun v => decide (v ≤ 59)) (fun _ => true) r8 with
                  | none => none
                  | some (mi, r9) =>
                    match parseLit ':' r9 with
                    | none => none
                    | some r10 =>
                      match parseField (fun v => decide (v ≤ 61)) (fun _ => true) r10 with
                      | none => none
                      | some (sec, r11) =>
                        match r11 with
                        | _ :: _ => none   -- unconverted data remains
                        | [] => mkDatetime y mo dy hr mi sec

/-- datetime.datetime.strptime(s, "%Y-%m-%dT%H:%M:%S"). -/
def strptimeIso (s : String) : Option DateTimeM := strptimeIsoChars s.data

/-- Days from 0001-01-01 to January 1st of year `y` (proleptic
Gregorian), as in the datetime module's ordinal computation. -/
def daysBeforeYear (y : Nat) : Nat :=
  365 * (y - 1) + (y - 1) / 4 - (y - 1) / 100 + (y - 1) / 400

/-- Days from January 1st to the first of month `m` in year `y`. -/
def daysBeforeMonth (y m : Nat) : Nat :=
  (List.range (m - 1)).foldl (fun acc i => acc + daysInMonth y (i + 1)) 0

/-- time.mktime(d.timetuple()), with the local timezone offset fixed at
zero: seconds between the Unix epoch and the given wall-clock time.
719162 is the number of days from 0001-01-01 to 1970-01-01. -/
def mktimeModel (d : DateTimeM) : Int :=
  ((daysBeforeYear d.year + daysBeforeMonth d.year d.month + (d.day - 1) : Nat) : Int)
      * 86400 - 719162 * 86400
    + (d.hour : Int) * 3600 + (d.minute : Int) * 60 + (d.second : Int)

/-- The argument of timestamp_from_isodate: an already-structured
datetime.datetime, or a string. -/
inductive IsoInput : Type
  | dt : DateTimeM → IsoInput
  | str : String → IsoInput

/-- timestamp_from_isodate(isodate); `Except.error ()` is the ValueError
raised by strptime or by the datetime constructor. -/
def timestamp_from_isodate (v : IsoInput) : Except Unit Int :=
  match v with
  | IsoInput.dt d => Except.ok (mktimeModel d)
  | IsoInput.str s =>
    match strptimeIso s with
    | some d => Except.ok (mktimeModel d)
    | none => Except.error ()

/-- Character of a decimal digit. -/
def digitChar (n : Nat) : Char := Char.ofNat (48 + n)

/-- Two-digit zero-padded rendering. -/
def pad2 (n : Nat) : List Char := [digitChar (n / 10), digitChar (n % 10)]

/-- Four-digit zero-padded rendering. -/
def pad4 (n : Nat) : List Char :=
  [digitChar (n / 1000), digitChar (n / 100 % 10), digitChar (n / 10 % 10), digitChar (n % 10)]

/-- The zero-padded YYYY-MM-DDTHH:MM:SS rendering of a datetime. -/
def isoPadChars (y m d h mi s : Nat) : List Char :=
  pad4 y ++ '-' :: pad2 m ++ '-' :: pad2 d ++ 'T' :: pad2 h ++ ':' :: pad2 mi ++ ':' :: pad2 s

/-- The zero-padded YYYY-MM-DDTHH:MM:SS rendering, as a string. -/
def isoPadString (y m d h mi s : Nat) : String := String.mk (isoPadChars y m d h mi s)

/-! ## Concrete environments used by witnesses and counterexamples -/

/-- Every rename attempt fails with ENOTEMPTY (a concurrent actor keeps
recreating the destination). -/
def rnAllOcc : Nat → Option Nat := fun _ => some ENOTEMPTY

/-- Every rmtree call succeeds. -/
def rmNoneEnv : Nat → Option Nat := fun _ => none

/-- The first rename attempt fails with ENOTEMPTY, the retry succeeds. -/
def rnOneOcc : Nat → Option Nat
  | 0 => some ENOTEMPTY
  | _ + 1 => none

/-- The first two rename attempts fail with ENOTEMPTY, the third
succeeds. -/
def rnTwoOcc : Nat → Option Nat
  | 0 => some ENOTEMPTY
  | 1 => some ENOTEMPTY
  | _ + 2 => none

/-- Every rename attempt succeeds at once. -/
def rnOk : Nat → Option Nat := fun _ => none

/-- swap_dir environment in which every rename attempt hits ENOTEMPTY. -/
def envExhaust : SwapEnv := ⟨none, rnAllOcc, rmNoneEnv, none⟩

/-- swap_dir environment in which the backup rmtree fails with EACCES. -/
def envBackupFail : SwapEnv := ⟨none, rnOk, rmNoneEnv, some 13⟩

/-- swap_dir environment in which the backup vanished between the
existence check and the rmtree, so the rmtree raises ENOENT. -/
def envBackupVanish : SwapEnv := ⟨none, rnOk, rmNoneEnv, some ENOENT⟩

/-- swap_dir environment in which everything succeeds. -/
def envBackupOk : SwapEnv := ⟨none, rnOk, rmNoneEnv, none⟩

/-- A file_handler that always raises EACCES. -/
def handlerErr13 : Handler := fun _ _ => HandlerResult.err 13

/-- A rename outcome that is an occupancy failure (ENOTEMPTY or EEXIST),
the condition of the retry branch of _force_rename_dir. -/
def isOccFail (o : Option Nat) : Prop :=
  ∃ e, o = some e ∧ (e = ENOTEMPTY ∨ e = EEXIST)

/-- A root directory holding a single stale file. -/
def esRootFile : EntryList := EntryList.cons "f" (FSTree.file 0) EntryList.nil

/-! ## Lemmas about the _force_rename_dir loop -/

theorem forceRenameGo_renameCalls_le (renames rmtrees : Nat → Option Nat) :
    ∀ fuel t, (forceRenameGo renames rmtrees fuel t).renameCalls ≤ fuel := by
  intro fuel
  induction fuel with
  | zero => intro t; simp [forceRenameGo]
  | succ f ih =>
    intro t
    unfold forceRenameGo
    cases renames t with
    | none => simp
    | some e =>
      by_cases hocc : e = ENOTEMPTY ∨ e = EEXIST
      · simp only [if_pos hocc]
        cases rmtrees t with
        | some e2 => simp
        | none => simp only; have := ih (t + 1); omega
      · simp only [if_neg hocc]; simp

theorem forceRenameGo_run (renames rmtrees : Nat → Option Nat) :
    ∀ k fuel t, k < fuel →
      (∀ j, j < k → isOccFail (renames (t + j)) ∧ rmtrees (t + j) = none) →
      (renames (t + k) = none →
        forceRenameGo renames rmtrees fuel t =
          ⟨FRResult.success, sleepList t k, k, k + 1⟩) ∧
      (∀ e, renames (t + k) = some e → ¬(e = ENOTEMPTY ∨ e = EEXIST) →
        forceRenameGo renames rmtrees fuel t =
          ⟨FRResult.raised e, sleepList t k, k, k + 1⟩) := by
  intro k
  induction k with
  | zero =>
    intro fuel t hk hocc
    obtain ⟨f, rfl⟩ : ∃ f, fuel = f + 1 := ⟨fuel - 1, by omega⟩
    constructor
    · intro hnone
      simp only [Nat.add_zero] at hnone
      simp [forceRenameGo, hnone, sleepList]
    · intro e he hne
      simp only [Nat.add_zero] at he
      simp [forceRenameGo, he, hne, sleepList]
  | succ k ih =>
    intro fuel t hk hocc
    obtain ⟨f, rfl⟩ : ∃ f, fuel = f + 1 := ⟨fuel - 1, by omega⟩
    obtain ⟨⟨e0, he0, hocc0⟩, hrm0⟩ := hocc 0 (Nat.succ_pos k)
    simp only [Nat.add_zero] at he0 hrm0
    have ihx := ih f (t + 1) (by omega) (fun j hj => by
      have hx := hocc (j + 1) (by omega)
      rw [show t + (j + 1) = t + 1 + j by omega] at hx
      exact hx)
    have hstep : forceRenameGo renames rmtrees (f + 1) t =
        ⟨(forceRenameGo renames rmtrees f (t + 1)).result,
         (if 0 < t then [(2 ^ t : ℚ) / 100] else [])
           ++ (forceRenameGo renames rmtrees f (t + 1)).sleeps,
         (forceRenameGo renames rmtrees f (t + 1)).rmtreeCalls + 1,
         (forceRenameGo renames rmtrees f (t + 1)).renameCalls + 1⟩ := by
      rcases hocc0 with h | h <;> subst h <;> simp [forceRenameGo, he0, hrm0]
    constructor
    · intro hnone
      rw [show t + (k + 1) = t + 1 + k by omega] at hnone
      rw [hstep, ihx.1 hnone]
      simp [sleepList]
    · intro e he hne
      rw [show t + (k + 1) = t + 1 + k by omega] at he
      rw [hstep, ihx.2 e he hne]
      simp [sleepList]

/-- Claim C1: the spec says that exhausting the 10 rename retries
propagates the underlying occupancy error; the code instead leaves the
while loop when rename_tries reaches 10 without re-raising, so
_force_rename_dir returns normally (having deleted dst_dir and not
renamed src_dir) and swap_dir goes on to delete the backup and return
successfully.  This theorem evaluates the model at the failing input:
every one of the 10 rename attempts fails with ENOTEMPTY, yet the loop
ends in the fall-through state and the surrounding swap_dir call reports
success. -/
theorem force_rename_exhaust_eval :
    forceRenameDir rnAllOcc rmNoneEnv =
      ⟨FRResult.exhausted, sleepList 0 10, 10, 10⟩ ∧
    swap_dir envExhaust true false false =
      ⟨SwapOutcome.ok, some FRResult.exhausted, true, false⟩ :=
  ⟨rfl, rfl⟩

/-- Claim C2, counterexample: with a single occupancy failure followed by
a successful retry the loop performs two rename attempts and no sleep at
all (the `if rename_tries > 0` guard skips the sleep before the first
retry), contradicting the claimed 2^attempt / 100 seconds of sleep
between attempts. -/
theorem force_rename_sleep_counterexample :
    forceRenameDir rnOneOcc rmNoneEnv = ⟨FRResult.success, [], 1, 2⟩ := rfl

/-- Claim C2 as amended: on an ENOTEMPTY/EEXIST failure the routine
removes the occupying destination tree and retries, up to 10 rename
attempts in total; there is no sleep before the first retry, and after
the j-th occupancy failure for j ≥ 2 it sleeps 2^(j-1) / 100 seconds
(captured by sleepList 0 k); a rename failure of any other kind is
propagated immediately, after which no further rename or rmtree call is
made. -/
theorem force_rename_retry (renames rmtrees : Nat → Option Nat) (k : Nat) (hk : k < 10)
    (hocc : ∀ j, j < k → isOccFail (renames j) ∧ rmtrees j = none) :
    (forceRenameDir renames rmtrees).renameCalls ≤ 10 ∧
    (renames k = none →
      forceRenameDir renames rmtrees = ⟨FRResult.success, sleepList 0 k, k, k + 1⟩) ∧
    (∀ e, renames k = some e → ¬(e = ENOTEMPTY ∨ e = EEXIST) →
      forceRenameDir renames rmtrees = ⟨FRResult.raised e, sleepList 0 k, k, k + 1⟩) := by
  have hrun := forceRenameGo_run renames rmtrees k 10 0 hk
    (fun j hj => by simpa using hocc j hj)
  refine ⟨forceRenameGo_renameCalls_le renames rmtrees 10 0, ?_, ?_⟩
  · intro hnone
    exact hrun.1 (by simpa using hnone)
  · intro e he hne
    exact hrun.2 e (by simpa using he) hne

/-- Claim C2, witness: two occupancy failures then success gives three
rename attempts, two rmtree calls, and exactly one sleep (before the
second retry, none before the first). -/
theorem force_rename_retry_witness :
    forceRenameDir rnTwoOcc rmNoneEnv = ⟨FRResult.success, sleepList 0 2, 2, 3⟩ := by
  refine (force_rename_retry rnTwoOcc rmNoneEnv 2 (by decide) ?_).2.1 rfl
  intro j hj
  interval_cases j
  · exact ⟨⟨ENOTEMPTY, rfl, Or.inl rfl⟩, rfl⟩
  · exact ⟨⟨ENOTEMPTY, rfl, Or.inl rfl⟩, rfl⟩

/-- Claim C3, counterexample: keep_old=false, dst_dir exists, the rename
succeeds at once, and the shutil.rmtree(tmp_dir) of the backup fails with
EACCES; swap_dir propagates that error, contradicting the claim that
errors during the backup deletion are not propagated. -/
theorem swap_backup_error_counterexample :
    swap_dir envBackupFail true false false =
      ⟨SwapOutcome.raised 13, some FRResult.success, true, true⟩ := rfl

/-- Claim C3 as amended: with keep_old=false, when the backup path exists
after the rename the backup is deleted by a plain shutil.rmtree whose
errors — including ENOENT when the backup vanished after the existence
check — propagate to the caller; only when the rmtree succeeds does
swap_dir return successfully, with the backup gone.  When no backup path
exists at the check, no deletion is attempted. -/
theorem swap_backup_cleanup (env : SwapEnv) (dst0 tmp0 : Bool)
    (h0 : dst0 = true → env.rename0 = none)
    (hfr : ∀ e, (forceRenameDir env.renames env.rmtrees).result ≠ FRResult.raised e) :
    ((tmp0 || dst0) = true →
      (∀ e, env.rmtreeTmp = some e →
        (swap_dir env dst0 tmp0 false).outcome = SwapOutcome.raised e) ∧
      (env.rmtreeTmp = none →
        (swap_dir env dst0 tmp0 false).outcome = SwapOutcome.ok ∧
        (swap_dir env dst0 tmp0 false).tmpExistsAfter = false)) ∧
    ((tmp0 || dst0) = false →
      (swap_dir env dst0 tmp0 false).rmtreeTmpCalled = false) := by
  cases hr : (forceRenameDir env.renames env.rmtrees).result with
  | raised e => exact absurd hr (hfr e)
  | success =>
    cases dst0 with
    | true =>
      cases hq : env.rmtreeTmp <;> simp [swap_dir, h0 rfl, hr, hq]
    | false =>
      cases tmp0 <;> cases hq : env.rmtreeTmp <;> simp [swap_dir, hr, hq]
  | exhausted =>
    cases dst0 with
    | true =>
      cases hq : env.rmtreeTmp <;> simp [swap_dir, h0 rfl, hr, hq]
    | false =>
      cases tmp0 <;> cases hq : env.rmtreeTmp <;> simp [swap_dir, hr, hq]

/-- Claim C3, witness: a backup that vanishes between the existence check
and the deletion makes the rmtree raise ENOENT, and swap_dir propagates
it rather than treating it as success. -/
theorem swap_backup_cleanup_witness :
    (swap_dir envBackupVanish true false false).outcome = SwapOutcome.raised ENOENT :=
  ((swap_backup_cleanup envBackupVanish true false (fun _ => rfl)
      (fun e h => FRResult.noConfusion h)).1 rfl).1 ENOENT rfl

/-- Claim C5: for a file visited by the general walk (processFile is the
embedding of the per-file try/except, applied by processFiles to every
listed file): the file_handler runs exactly when before_timestamp is zero
or the file's mtime is strictly below it; a file with mtime at or above a
nonzero before_timestamp is left untouched with no handler call; an
ENOENT raised while handling is swallowed (no errno ever escapes as
ENOENT); any other errno raised by the handler escapes unchanged. -/
theorem cleanup_file_handling (bt : Nat) (h : Handler) (p : List String) (m : Nat) :
    (0 < (processFile bt h p m).2.1 ↔ (bt = 0 ∨ m < bt)) ∧
    (bt ≠ 0 → bt ≤ m → processFile bt h p m = (some m, 0, none)) ∧
    ((processFile bt h p m).2.2 ≠ some ENOENT) ∧
    (∀ e, h p m = HandlerResult.err e → (bt = 0 ∨ m < bt) →
      (processFile bt h p m).2.2 = if e = ENOENT then none else some e) := by
  by_cases hbt : bt = 0
  · subst hbt
    cases hh : h p m with
    | ok nf =>
      cases nf with
      | none => simp [processFile, fileTryBody, hh]
      | some m2 => simp [processFile, fileTryBody, hh]
    | err e =>
      by_cases he : e = ENOENT <;>
        simp [processFile, fileTryBody, hh, he]
  · by_cases hm : m < bt
    · cases hh : h p m with
      | ok nf => simp [processFile, fileTryBody, hbt, hm, hh]
      | err e =>
        by_cases he : e = ENOENT <;>
          simp [processFile, fileTryBody, hbt, hm, hh, he]
    · simp [processFile, fileTryBody, hbt, hm]

/-- Claim C5, witness: a handler failing with EACCES on a stale file
(mtime 3, cutoff 5) escapes the walk unchanged. -/
theorem cleanup_file_handling_witness :
    (processFile 5 handlerErr13 [] 3).2.2 = if (13 : Nat) = ENOENT then none else some 13 :=
  (cleanup_file_handling 5 handlerErr13 [] 3).2.2.2 13 rfl (Or.inr (by decide))

/-- Claim C7, counterexample: in this Python 2 module a failure while
writing the bytes raises IOError, which `except OSError` does not catch:
the error propagates (and the target is untouched) but the temporary
file is left behind, contradicting the claim that the temporary file is
removed on any failure during the write. -/
theorem write_atomic_ioerror_counterexample :
    write_atomic ⟨none, some 28, none, none⟩ [1, 2] none =
      ⟨some (PyErr.ioError 28), none, true⟩ := rfl

/-- Claim C7 as amended: an OSError from the exclusive temp-file creation
or from the rename triggers the best-effort unlink of the temporary file
(unlink errors ignored) and then propagates; an IOError from writing the
bytes propagates without the temporary file being removed; in every
failure case the target path keeps its pre-call content or absence. -/
theorem write_atomic_failure_modes (env : WriteEnv) (data : List Nat)
    (t0 : Option (List Nat)) :
    (∀ e, env.openR = some e →
      write_atomic env data t0 = ⟨some (PyErr.osError e), t0, false⟩) ∧
    (env.openR = none → ∀ e, env.writeR = some e →
      write_atomic env data t0 = ⟨some (PyErr.ioError e), t0, true⟩) ∧
    (env.openR = none → env.writeR = none → ∀ e, env.renameR = some e →
      write_atomic env data t0 = ⟨some (PyErr.osError e), t0, env.unlinkR.isSome⟩) ∧
    ((write_atomic env data t0).raised ≠ none → (write_atomic env data t0).target = t0) := by
  refine ⟨?_, ?_, ?_, ?_⟩
  · intro e he; simp [write_atomic, he]
  · intro ho e he; simp [write_atomic, ho, he]
  · intro ho hw e he; simp [write_atomic, ho, hw, he]
  · cases ho : env.openR <;> cases hw : env.writeR <;> cases hr : env.renameR <;>
      simp [write_atomic, ho, hw, hr]

/-- Claim C7, witness: a failing exclusive create propagates the OSError
with the target untouched and no temporary file left. -/
theorem write_atomic_failure_modes_witness :
    write_atomic ⟨some 13, none, none, none⟩ [1, 2] (some [9]) =
      ⟨some (PyErr.osError 13), some [9], false⟩ :=
  (write_atomic_failure_modes ⟨some 13, none, none, none⟩ [1, 2] (some [9])).1 13 rfl

/-- Claim C9: calling cleanup_directory on a path that does not exist is
a no-op for every cutoff, remove_empty_dirs flag and file_handler: no
event is performed, no error is raised, and the (absent) tree is
unchanged. -/
theorem cleanup_nonexistent (bt : Nat) (red : Bool) (fh : Option Handler) :
    cleanup_directory bt red fh none = (none, [], none) := by
  cases fh <;> simp [cleanup_directory, cleanupWalk]

/-- Claim C10: with keep_old=false, when dst_dir does not exist before
the call but the backup path dst_dir + backup_ext already exists (for
example a stale backup of an earlier keep_old run), swap_dir reaches the
backup-cleanup step (whenever _force_rename_dir does not raise) and
calls shutil.rmtree on that pre-existing tree; when the rmtree succeeds
the tree is gone. -/
theorem swap_dir_stale_backup (env : SwapEnv)
    (hfr : ∀ e, (forceRenameDir env.renames env.rmtrees).result ≠ FRResult.raised e) :
    (swap_dir env false true false).rmtreeTmpCalled = true ∧
    (env.rmtreeTmp = none → (swap_dir env false true false).tmpExistsAfter = false) := by
  cases hr : (forceRenameDir env.renames env.rmtrees).result with
  | raised e => exact absurd hr (hfr e)
  | success => cases hq : env.rmtreeTmp <;> simp [swap_dir, hr, hq]
  | exhausted => cases hq : env.rmtreeTmp <;> simp [swap_dir, hr, hq]

/-- Claim C10, witness: a concrete run with a stale backup, everything
succeeding: the rmtree of the stale tree is performed and the backup
path is gone afterwards. -/
theorem swap_dir_stale_backup_witness :
    (swap_dir envBackupOk false true false).rmtreeTmpCalled = true ∧
    (swap_dir envBackupOk false true false).tmpExistsAfter = false :=
  ⟨(swap_dir_stale_backup envBackupOk (fun e h => FRResult.noConfusion h)).1,
   (swap_dir_stale_backup envBackupOk (fun e h => FRResult.noConfusion h)).2 rfl⟩

/-! ## Lemmas about the cleanup walk with cutoff zero and the default
handler -/

theorem filenamesOf_eq_nil : ∀ es : EntryList,
    (filenamesOf es = [] ↔ filesOnly es = EntryList.nil)
  | EntryList.nil => by simp [filenamesOf, filesOnly]
  | EntryList.cons n (FSTree.file m) rest => by simp [filenamesOf, filesOnly]
  | EntryList.cons n (FSTree.dir d) rest => by
    simpa [filenamesOf, filesOnly] using filenamesOf_eq_nil rest

theorem allFiles_filesOnly : ∀ es : EntryList, allFiles (filesOnly es) = true
  | EntryList.nil => rfl
  | EntryList.cons n (FSTree.file m) rest => by
    simpa [filesOnly, allFiles] using allFiles_filesOnly rest
  | EntryList.cons n (FSTree.dir d) rest => by
    simpa [filesOnly] using allFiles_filesOnly rest

theorem names_filesOnly : ∀ es : EntryList,
    (filesOnly es).names = (filenamesOf es).map Prod.fst
  | EntryList.nil => rfl
  | EntryList.cons n (FSTree.file m) rest => by
    simpa [filesOnly, filenamesOf, EntryList.names] using names_filesOnly rest
  | EntryList.cons n (FSTree.dir d) rest => by
    simpa [filesOnly, filenamesOf] using names_filesOnly rest

theorem names_eq_nil : ∀ es : EntryList, es.names = [] → es = EntryList.nil
  | EntryList.nil, _ => rfl
  | EntryList.cons n t rest, h => by simp [EntryList.names] at h

theorem updateFileEntry_none_allFiles : ∀ (es : EntryList) (n0 : String),
    allFiles es = true → allFiles (updateFileEntry es n0 none) = true
  | EntryList.nil, n0, _ => rfl
  | EntryList.cons n (FSTree.file m) rest, n0, h => by
    have ih := updateFileEntry_none_allFiles rest n0 (by simpa [allFiles] using h)
    by_cases hn : n = n0 <;> simp [updateFileEntry, hn, allFiles, ih]
  | EntryList.cons n (FSTree.dir d) rest, n0, h => by
    simp [allFiles] at h

theorem mem_updateFileEntry_none : ∀ (es : EntryList) (n0 x : String),
    allFiles es = true → x ∈ (updateFileEntry es n0 none).names →
    x ∈ es.names ∧ x ≠ n0
  | EntryList.nil, n0, x, _, hx => by simp [updateFileEntry, EntryList.names] at hx
  | EntryList.cons n (FSTree.file m) rest, n0, x, h, hx => by
    have hr : allFiles rest = true := by simpa [allFiles] using h
    by_cases hn : n = n0
    · simp only [updateFileEntry, if_pos hn] at hx
      have := mem_updateFileEntry_none rest n0 x hr hx
      exact ⟨by simp [EntryList.names, this.1], this.2⟩
    · simp only [updateFileEntry, if_neg hn, EntryList.names, List.mem_cons] at hx
      rcases hx with rfl | hx
      · exact ⟨by simp [EntryList.names], hn⟩
      · have := mem_updateFileEntry_none rest n0 x hr hx
        exact ⟨by simp [EntryList.names, this.1], this.2⟩
  | EntryList.cons n (FSTree.dir d) rest, n0, x, h, hx => by
    simp [allFiles] at h

theorem processFiles_default_zero :
    ∀ (L : List (String × Nat)) (E : EntryList) (p : List String),
      allFiles E = true → (∀ x, x ∈ E.names → x ∈ L.map Prod.fst) →
      processFiles 0 defaultHandler p E L = (EntryList.nil, none) := by
  intro L
  induction L with
  | nil =>
    intro E p hall hsub
    have : E.names = [] := by
      cases hE : E.names with
      | nil => rfl
      | cons a as =>
        have := hsub a (by simp [hE])
        simp at this
    rw [names_eq_nil E this]
    rfl
  | cons nm rest ih =>
    intro E p hall hsub
    obtain ⟨n, m⟩ := nm
    have hpf : processFile 0 defaultHandler (p ++ [n]) m = (none, 1, none) := rfl
    show processFiles 0 defaultHandler p E ((n, m) :: rest) = (EntryList.nil, none)
    simp only [processFiles, hpf]
    exact ih (updateFileEntry E n none) p
      (updateFileEntry_none_allFiles E n hall)
      (fun x hx => by
        obtain ⟨hmem, hne⟩ := mem_updateFileEntry_none E n x hall hx
        have := hsub x hmem
        simp only [List.map_cons, List.mem_cons] at this
        rcases this with h | h
        · exact absurd h hne
        · exact h)

theorem dirYield_clean_zero_nonroot (sub : EntryList) (p : List String) :
    (dirYield 0 true defaultHandler false p sub (filesOnly sub)).1 = none ∧
    (dirYield 0 true defaultHandler false p sub (filesOnly sub)).2.2 = none := by
  by_cases hf : filenamesOf sub = []
  · have hnil : filesOnly sub = EntryList.nil := (filenamesOf_eq_nil sub).1 hf
    simp [dirYield, hf, hnil, EntryList.isEmpty]
  · have hpf := processFiles_default_zero (filenamesOf sub) (filesOnly sub) p
      (allFiles_filesOnly sub)
      (fun x hx => by rw [names_filesOnly sub] at hx; exact hx)
    simp [dirYield, hf, hpf, EntryList.isEmpty]

theorem walkChildren_clean_zero : ∀ (es : EntryList) (p : List String),
    (walkChildren 0 true defaultHandler p es).1 = filesOnly es ∧
    (walkChildren 0 true defaultHandler p es).2.2 = none
  | EntryList.nil, p => by simp [walkChildren, filesOnly]
  | EntryList.cons n (FSTree.file m) rest, p => by
    have ih := walkChildren_clean_zero rest p
    simp [walkChildren, filesOnly, ih.1, ih.2]
  | EntryList.cons n (FSTree.dir sub) rest, p => by
    have ihsub := walkChildren_clean_zero sub (p ++ [n])
    have ihrest := walkChildren_clean_zero rest p
    have hdy := dirYield_clean_zero_nonroot sub (p ++ [n])
    rcases hy : dirYield 0 true defaultHandler false (p ++ [n]) sub (filesOnly sub)
      with ⟨st, tr2, ab⟩
    rw [hy] at hdy
    obtain ⟨h1, h2⟩ := hdy
    simp only at h1 h2
    subst h1; subst h2
    simp [walkChildren, ihsub.1, ihsub.2, hy, filesOnly, ihrest.1, ihrest.2]

theorem cleanupWalk_clean_zero (es : EntryList) :
    (cleanupWalk 0 true defaultHandler (some (FSTree.dir es))).1 = none ∧
    (cleanupWalk 0 true defaultHandler (some (FSTree.dir es))).2.2 = none := by
  have hch := walkChildren_clean_zero es []
  by_cases hf : filenamesOf es = []
  · have hnil : filesOnly es = EntryList.nil := (filenamesOf_eq_nil es).1 hf
    simp [cleanupWalk, walkRoot, hch.1, hch.2, dirYield, hf, hnil, EntryList.isEmpty]
  · have hpf := processFiles_default_zero (filenamesOf es) (filesOnly es) []
      (allFiles_filesOnly es)
      (fun x hx => by rw [names_filesOnly es] at hx; exact hx)
    simp [cleanupWalk, walkRoot, hch.1, hch.2, dirYield, hf, hpf, EntryList.isEmpty]

/-- Claim C4: for an existing directory tree, cleanup_directory with
before_timestamp 0, remove_empty_dirs true and the default file_handler
takes the fast path — a single recursive shutil.rmtree (errors
suppressed) and an immediate return — and the resulting filesystem state
(the tree is gone) equals the state the general walk would produce with
the same arguments, which also finishes without error. -/
theorem cleanup_fast_path_equiv (es : EntryList) :
    cleanup_directory 0 true none (some (FSTree.dir es)) =
      (none, [CleanEvent.rmtreeRoot], none) ∧
    (cleanupWalk 0 true defaultHandler (some (FSTree.dir es))).1 =
      (cleanup_directory 0 true none (some (FSTree.dir es))).1 ∧
    (cleanupWalk 0 true defaultHandler (some (FSTree.dir es))).2.2 = none := by
  have hw := cleanupWalk_clean_zero es
  refine ⟨by simp [cleanup_directory], ?_, hw.2⟩
  simp [cleanup_directory, hw.1]

/-- Claim C6, counterexample: a root directory holding one stale file
(cutoff 1, mtime 0, remove_empty_dirs true, default handler): after the
file is deleted the root is removed by the remove_dir_if_emtpy that
follows its own file processing inside the walk loop, and the final
post-walk attempt finds nothing left to remove — contradicting the claim
that the root is only removed by the final removal attempt after the
walk. -/
theorem cleanup_root_inloop_removal_counterexample :
    cleanupWalk 1 true defaultHandler (some (FSTree.dir esRootFile)) =
      (none, [CleanEvent.removeIfEmpty [] true, CleanEvent.finalRemove false], none) ∧
    cleanup_directory 1 true none (some (FSTree.dir esRootFile)) =
      (none, [CleanEvent.removeIfEmpty [] true, CleanEvent.finalRemove false], none) :=
  ⟨rfl, rfl⟩

/-- Claim C6 as amended: with remove_empty_dirs true, a non-root
directory whose subtree was empty before the walk began is removed
immediately by the os.rmdir of the empty-filenames branch, with its file
processing skipped and the walk continuing; the root is never removed by
that immediate branch (an empty root is left for the final attempt); but
the root is not only removed by the final post-walk attempt: whenever
the walk loop itself removes the root, the last event is the
remove_dir_if_emtpy that follows the root's file processing and the
final post-walk attempt then finds nothing (finalRemove false), while
the final attempt performs the removal exactly when the walk leaves the
root existing and empty. -/
theorem walk_empty_and_root_removal (bt : Nat) (h : Handler) (p : List String)
    (n : String) (rest es : EntryList) :
    (walkChildren bt true h p (EntryList.cons n (FSTree.dir EntryList.nil) rest) =
      ((walkChildren bt true h p rest).1,
       CleanEvent.rmdirEmpty (p ++ [n]) :: (walkChildren bt true h p rest).2.1,
       (walkChildren bt true h p rest).2.2)) ∧
    (walkRoot bt true h EntryList.nil = (some EntryList.nil, [], none)) ∧
    (∀ tr, walkRoot bt true h es = (none, tr, none) →
      tr.getLast? = some (CleanEvent.removeIfEmpty [] true) ∧
      cleanupWalk bt true h (some (FSTree.dir es)) =
        (none, tr ++ [CleanEvent.finalRemove false], none)) ∧
    (∀ tr, walkRoot bt true h es = (some EntryList.nil, tr, none) →
      cleanupWalk bt true h (some (FSTree.dir es)) =
        (none, tr ++ [CleanEvent.finalRemove true], none)) := by
  refine ⟨?_, ?_, ?_, ?_⟩
  · simp [walkChildren, dirYield, filenamesOf, EntryList.isEmpty]
  · simp [walkRoot, walkChildren, dirYield, filenamesOf, EntryList.isEmpty]
  · intro tr heq
    refine ⟨?_, by simp [cleanupWalk, heq]⟩
    rcases hch : walkChildren bt true h [] es with ⟨es1, tr1, ab1⟩
    cases ab1 with
    | some e => simp [walkRoot, hch] at heq
    | none =>
      rcases hdy : dirYield bt true h true [] es es1 with ⟨st, tr2, ab⟩
      simp only [walkRoot, hch, hdy] at heq
      obtain ⟨hst, htr, hab⟩ : st = none ∧ tr1 ++ tr2 = tr ∧ ab = none := by
        simpa [Prod.ext_iff] using heq
      subst hst; subst hab
      by_cases hf : (filenamesOf es).isEmpty
      · by_cases hemp : es1.isEmpty = true <;> simp [dirYield, hf, hemp] at hdy
      · rcases hpf : processFiles bt h [] es1 (filenamesOf es) with ⟨cur2, ab2⟩
        cases ab2 with
        | some e => simp [dirYield, hf, hpf] at hdy
        | none =>
          by_cases hemp : cur2.isEmpty = true
          · simp only [dirYield, hf, hpf, hemp] at hdy
            simp only [Bool.false_eq_true, if_false, if_true] at hdy
            obtain ⟨-, htr2, -⟩ : (none : Option EntryList) = none ∧
                [CleanEvent.removeIfEmpty [] true] = tr2 ∧ (none : Option Nat) = none := by
              simpa [Prod.ext_iff] using hdy
            rw [← htr, ← htr2]
            simp
          · simp [dirYield, hf, hpf, hemp] at hdy
  · intro tr heq
    simp [cleanupWalk, heq, EntryList.isEmpty]

/-- Claim C6, witness: instantiating the root-removal part at the
one-stale-file tree: the walk removes the root right after its file
processing and the final attempt reports nothing removed. -/
theorem walk_empty_and_root_removal_witness :
    (([CleanEvent.removeIfEmpty [] true] : List CleanEvent).getLast?
        = some (CleanEvent.removeIfEmpty [] true)) ∧
    cleanupWalk 1 true defaultHandler (some (FSTree.dir esRootFile)) =
      (none, [CleanEvent.removeIfEmpty [] true] ++ [CleanEvent.finalRemove false], none) :=
  (walk_empty_and_root_removal 1 defaultHandler [] "x" EntryList.nil esRootFile).2.2.1
    [CleanEvent.removeIfEmpty [] true] rfl

/-! ## Lemmas about the fixed-format strptime -/

theorem digitVal_digitChar : ∀ n, n < 10 → digitVal (digitChar n) = some n := by decide

theorem parseYear_pad4 (y : Nat) (rest : List Char) (hy : y ≤ 9999) :
    parseYear (pad4 y ++ rest) = some (y, rest) := by
  have h1 := digitVal_digitChar (y / 1000) (by omega)
  have h2 := digitVal_digitChar (y / 100 % 10) (by omega)
  have h3 := digitVal_digitChar (y / 10 % 10) (by omega)
  have h4 := digitVal_digitChar (y % 10) (by omega)
  simp only [pad4, List.cons_append, List.nil_append, parseYear, h1, h2, h3, h4,
    Option.some.injEq, Prod.mk.injEq]
  exact ⟨by omega, trivial⟩

theorem parseField_pad2 (okTwo okOne : Nat → Bool) (v : Nat) (rest : List Char)
    (hv : v ≤ 99) (h2 : okTwo v = true) :
    parseField okTwo okOne (pad2 v ++ rest) = some (v, rest) := by
  have ha := digitVal_digitChar (v / 10) (by omega)
  have hb := digitVal_digitChar (v % 10) (by omega)
  have hval : 10 * (v / 10) + v % 10 = v := by omega
  simp only [pad2, List.cons_append, List.nil_append, parseField, ha, hb, hval, h2, if_true]

theorem parseLit_cons_self (ch : Char) (rest : List Char) :
    parseLit ch (ch :: rest) = some rest := by
  simp [parseLit]

theorem daysInMonth_le_31 (y m : Nat) : daysInMonth y m ≤ 31 := by
  unfold daysInMonth
  split
  · split <;> omega
  · split <;> omega

theorem strptimeIsoChars_pad (y m d h mi s : Nat) (hy : y ≤ 9999)
    (hm1 : 1 ≤ m) (hm2 : m ≤ 12) (hd1 : 1 ≤ d) (hd2 : d ≤ 31)
    (hh : h ≤ 23) (hmi : mi ≤ 59) (hs : s ≤ 59) :
    strptimeIsoChars (isoPadChars y m d h mi s) = mkDatetime y m d h mi s := by
  have hshape : isoPadChars y m d h mi s =
      pad4 y ++ ('-' :: (pad2 m ++ ('-' :: (pad2 d ++ ('T' :: (pad2 h ++ (':' ::
        (pad2 mi ++ (':' :: (pad2 s ++ ([] : List Char))))))))))) := by
    simp [isoPadChars]
  have hokm : (fun v => decide (1 ≤ v ∧ v ≤ 12)) m = true := by
    simp only [decide_eq_true_eq]; exact ⟨hm1, hm2⟩
  have hokd : (fun v => decide (1 ≤ v ∧ v ≤ 31)) d = true := by
    simp only [decide_eq_true_eq]; exact ⟨hd1, hd2⟩
  have hokh : (fun v => decide (v ≤ 23)) h = true := by
    simp only [decide_eq_true_eq]; exact hh
  have hokmi : (fun v => decide (v ≤ 59)) mi = true := by
    simp only [decide_eq_true_eq]; exact hmi
  have hoks : (fun v => decide (v ≤ 61)) s = true := by
    simp only [decide_eq_true_eq]; omega
  rw [hshape]
  simp only [strptimeIsoChars, parseYear_pad4 y _ hy, parseLit_cons_self,
    parseField_pad2 (fun v => decide (1 ≤ v ∧ v ≤ 12)) (fun d0 => decide (1 ≤ d0))
      m _ (by omega) hokm,
    parseField_pad2 (fun v => decide (1 ≤ v ∧ v ≤ 31)) (fun d0 => decide (1 ≤ d0))
      d _ (by omega) hokd,
    parseField_pad2 (fun v => decide (v ≤ 23)) (fun _ => true) h _ (by omega) hokh,
    parseField_pad2 (fun v => decide (v ≤ 59)) (fun _ => true) mi _ (by omega) hokmi,
    parseField_pad2 (fun v => decide (v ≤ 61)) (fun _ => true) s _ (by omega) hoks]

/-- Claim C8, counterexample: strptime's %m, %d, %H, %M and %S directives
also accept single-digit fields, so the string "2009-6-9T1:2:3", which is
not of the shape YYYY-MM-DDTHH:MM:SS, parses successfully and yields a
timestamp — contradicting the claim that every string of any other shape
fails with a value error. -/
theorem timestamp_isodate_counterexample :
    timestamp_from_isodate (IsoInput.str "2009-6-9T1:2:3") =
      Except.ok (mktimeModel ⟨2009, 6, 9, 1, 2, 3⟩) := rfl

/-- Claim C8 as amended: timestamp_from_isodate accepts an
already-structured datetime value, returning its timestamp, and accepts
a string exactly when the fixed-format parse accepts it: a four-digit
year from 0001, one-or-two-digit month/day/hour/minute/second fields in
range (the day valid for the month and year), separated by literal
'-', '-', 'T', ':', ':' with no trailing text.  In particular every
zero-padded YYYY-MM-DDTHH:MM:SS string with in-range field values is
accepted (strings with single-digit fields are also accepted, as the
counterexample shows), and a string missing the seconds field fails with
a value error. -/
theorem timestamp_isodate_accepts (y m d h mi s : Nat)
    (hy1 : 1 ≤ y) (hy2 : y ≤ 9999) (hm1 : 1 ≤ m) (hm2 : m ≤ 12)
    (hd1 : 1 ≤ d) (hd2 : d ≤ daysInMonth y m) (hh : h ≤ 23) (hmi : mi ≤ 59) (hs : s ≤ 59) :
    (∀ dt0 : DateTimeM,
      timestamp_from_isodate (IsoInput.dt dt0) = Except.ok (mktimeModel dt0)) ∧
    timestamp_from_isodate (IsoInput.str (isoPadString y m d h mi s)) =
      Except.ok (mktimeModel ⟨y, m, d, h, mi, s⟩) ∧
    timestamp_from_isodate (IsoInput.str "2009-06-09T10:57") = Except.error () := by
  refine ⟨fun dt0 => rfl, ?_, rfl⟩
  have hd31 : d ≤ 31 := le_trans hd2 (daysInMonth_le_31 y m)
  have hparse : strptimeIso (isoPadString y m d h mi s) = some ⟨y, m, d, h, mi, s⟩ := by
    show strptimeIsoChars (isoPadChars y m d h mi s) = some ⟨y, m, d, h, mi, s⟩
    rw [strptimeIsoChars_pad y m d h mi s hy2 hm1 hm2 hd1 hd31 hh hmi hs]
    unfold mkDatetime
    rw [if_pos ⟨hy1, hy2, hm1, hm2, hd1, hd2, hh, hmi, hs⟩]
  simp [timestamp_from_isodate, hparse]

/-- Claim C8, witness: the spec's own example date in zero-padded form is
accepted. -/
theorem timestamp_isodate_accepts_witness :
    timestamp_from_isodate (IsoInput.str (isoPadString 2009 6 9 10 57 0)) =
      Except.ok (mktimeModel ⟨2009, 6, 9, 10, 57, 0⟩) :=
  (timestamp_isodate_accepts 2009 6 9 10 57 0 (by decide) (by decide) (by decide)
    (by decide) (by decide) (by decide) (by decide) (by decide) (by decide)).2.1
